import Mathlib

set_option maxHeartbeats 1000000
set_option maxRecDepth 8000

/-!
Verification of the desktop-app repository core: a shallow embedding of the
environment-resolution, identity-resolution and relaunch code found in
`desktop_app/environment.py`, `desktop_app/launcher.py`, `desktop_app/shell.py`,
`desktop_app/linux.py` and `desktop_app/windows.py`, together with theorems
settling the spec claims about those functions.

Environment mappings are modelled as functions `String → Option String`,
`pathlib.Path` values as a structure of an absoluteness flag plus component
list, and machine-word arithmetic in the SHA-256 embedding uses `Nat`
arithmetic reduced modulo `2 ^ 32`.
-/

namespace DesktopApp


/-! ## Basic list and string utilities -/

/-- Python `str.join` semantics: `sep.join(parts)`. -/
def joinStrs (sep : String) : List String → String
  | [] => ""
  | [a] => a
  | a :: rest => a ++ sep ++ joinStrs sep rest

/-- Split a character list at every separator character (Python `str.split`
semantics: empty pieces are kept, splitting the empty list yields one empty
piece). -/
def splitSeps (f : Char → Bool) : List Char → List (List Char)
  | [] => [[]]
  | c :: cs =>
    match splitSeps f cs with
    | [] => [[]]
    | p :: ps => if f c then [] :: p :: ps else (c :: p) :: ps

/-- Join character-list pieces with a separator character. -/
def joinParts (sep : Char) : List (List Char) → List Char
  | [] => []
  | [p] => p
  | p :: rest => p ++ sep :: joinParts sep rest

/-- ASCII lowering of a string, modelling Python `str.lower` on the inputs the
code feeds it. -/
def strLower (s : String) : String := String.mk (s.toList.map Char.toLower)

/-- Replace every occurrence of the character `a` by the character list `rep`
(Python `str.replace` for a single-character pattern). -/
def replaceChar (a : Char) (rep : List Char) (cs : List Char) : List Char :=
  cs.flatMap (fun x => if x = a then rep else [x])

/-- Boolean list-prefix test. -/
def isPref : List Char → List Char → Bool
  | [], _ => true
  | _ :: _, [] => false
  | a :: as, b :: bs => a == b && isPref as bs

/-- Index of the first occurrence of `pat` in a character list, if any. -/
def firstOccur (pat : List Char) : List Char → Option Nat
  | [] => if isPref pat [] then some 0 else none
  | c :: cs =>
    if isPref pat (c :: cs) then some 0
    else Option.map (fun n => n + 1) (firstOccur pat cs)

/-! ## A model of pathlib.Path values

A `pathlib` path is modelled as an absoluteness flag plus the list of
components.  Parsing splits on the OS separators (`/`, plus a backslash on
Windows), dropping empty components and single-dot components, as `PurePath`
parsing does.  `PyPath.toStr` is `str(path)`; `pyPathEq` is `Path.__eq__`,
which on Windows compares case-insensitively.  Windows drive letters are kept
as ordinary first components, which preserves equality semantics between two
parsed path strings. -/

@[ext]
structure PyPath where
  isAbs : Bool
  parts : List String
deriving DecidableEq

/-- The separator characters recognised when parsing (`/` always, `\` on
Windows). -/
def sepSet (w : Bool) (c : Char) : Bool := c == '/' || (w && c == '\\')

/-- The separator that `str(path)` prints (`\` on Windows, `/` on POSIX). -/
def pathSepChar (w : Bool) : Char := if w then '\\' else '/'

/-- Whether the first character of the path string is a separator. -/
def headIsSep (w : Bool) : List Char → Bool
  | [] => false
  | c :: _ => sepSet w c

/-- Keep a parsed component: drop empty pieces and `.` pieces, as `PurePath`
does. -/
def keepPiece (p : List Char) : Bool := !(p == []) && !(p == ['.'])

/-- Parse a path string, modelling `pathlib.Path(s)`. -/
def parsePath (w : Bool) (s : String) : PyPath :=
  let cs := s.toList
  { isAbs := headIsSep w cs
    parts := List.map (fun p => String.mk p)
      (List.filter keepPiece (splitSeps (sepSet w) cs)) }

/-- The character list of `str(path)`. -/
def toStrChars (w : Bool) (p : PyPath) : List Char :=
  match p.parts with
  | [] => if p.isAbs then [pathSepChar w] else ['.']
  | ps => (if p.isAbs then [pathSepChar w] else []) ++
      joinParts (pathSepChar w) (ps.map String.toList)

/-- `str(path)`. -/
def PyPath.toStr (w : Bool) (p : PyPath) : String := String.mk (toStrChars w p)

/-- Case folding used by `PurePath.__eq__` (case-insensitive on Windows). -/
def normCasePart (w : Bool) (s : String) : String := if w then strLower s else s

/-- `Path.__eq__`: equality of normalized-case string forms. -/
def pyPathEq (w : Bool) (a b : PyPath) : Bool :=
  (a.isAbs == b.isAbs) &&
    (List.map (normCasePart w) a.parts == List.map (normCasePart w) b.parts)

/-- `path / seg1 / seg2 / ...` for ordinary (separator-free, relative)
segments. -/
def PyPath.child (p : PyPath) (segs : List String) : PyPath :=
  { isAbs := p.isAbs, parts := p.parts ++ segs }

/-- `path.parent` (for the paths the code applies it to). -/
def PyPath.parent (p : PyPath) : PyPath :=
  { isAbs := p.isAbs, parts := p.parts.dropLast }

/-- `path.name`: the final component, or the empty string. -/
def PyPath.name (p : PyPath) : String := p.parts.getLastD ""

/-! ## SHA-256 (the `hashlib.sha256(...).hexdigest()` call in shell.py)

A direct embedding of FIPS 180-4 SHA-256 over byte lists, with 32-bit words
represented as `Nat` reduced modulo `2 ^ 32`. -/

/-- `2 ^ 32`. -/
def M32 : Nat := 4294967296

def add32 (a b : Nat) : Nat := (a + b) % M32

def rotr (k n : Nat) : Nat := ((n / 2 ^ k) + (n % 2 ^ k) * 2 ^ (32 - k)) % M32

def shr (k n : Nat) : Nat := n / 2 ^ k

def notW (a : Nat) : Nat := a ^^^ (M32 - 1)

def bsig0 (x : Nat) : Nat := (rotr 2 x) ^^^ (rotr 13 x) ^^^ (rotr 22 x)

def bsig1 (x : Nat) : Nat := (rotr 6 x) ^^^ (rotr 11 x) ^^^ (rotr 25 x)

def ssig0 (x : Nat) : Nat := (rotr 7 x) ^^^ (rotr 18 x) ^^^ (shr 3 x)

def ssig1 (x : Nat) : Nat := (rotr 17 x) ^^^ (rotr 19 x) ^^^ (shr 10 x)

def chF (x y z : Nat) : Nat := (x &&& y) ^^^ ((notW x) &&& z)

def majF (x y z : Nat) : Nat := (x &&& y) ^^^ (x &&& z) ^^^ (y &&& z)

/-- The 64 SHA-256 round constants. -/
def K256 : List Nat :=
  [1116352408, 1899447441, 3049323471, 3921009573,
   961987163, 1508970993, 2453635748, 2870763221,
   3624381080, 310598401, 607225278, 1426881987,
   1925078388, 2162078206, 2614888103, 3248222580,
   3835390401, 4022224774, 264347078, 604807628,
   770255983, 1249150122, 1555081692, 1996064986,
   2554220882, 2821834349, 2952996808, 3210313671,
   3336571891, 3584528711, 113926993, 338241895,
   666307205, 773529912, 1294757372, 1396182291,
   1695183700, 1986661051, 2177026350, 2456956037,
   2730485921, 2820302411, 3259730800, 3345764771,
   3516065817, 3600352804, 4094571909, 275423344,
   430227734, 506948616, 659060556, 883997877,
   958139571, 1322822218, 1537002063, 1747873779,
   1955562222, 2024104815, 2227730452, 2361852424,
   2428436474, 2756734187, 3204031479, 3329325298]

/-- The eight working variables / hash state. -/
structure Hash8 where
  a : Nat
  b : Nat
  c : Nat
  d : Nat
  e : Nat
  f : Nat
  g : Nat
  h : Nat

/-- The SHA-256 initial hash value. -/
def H0sha : Hash8 :=
  ⟨1779033703, 3144134277, 1013904242, 2773480762,
   1359893119, 2600822924, 528734635, 1541459225⟩

/-- Extend 16 message words to the 64-entry message schedule. -/
def schedule (ws : Array Nat) : Array Nat :=
  (List.range 48).foldl
    (fun w _ =>
      let i := w.size
      w.push (add32 (add32 (ssig1 (w[i - 2]!)) (w[i - 7]!))
        (add32 (ssig0 (w[i - 15]!)) (w[i - 16]!))))
    ws

/-- One SHA-256 compression of a 16-word block. -/
def compressBlock (hv : Hash8) (block : List Nat) : Hash8 :=
  let w := schedule block.toArray
  let st := (List.range 64).foldl
    (fun (s : Hash8) t =>
      let t1 := add32 (add32 (add32 s.h (bsig1 s.e))
        (add32 (chF s.e s.f s.g) (K256.getD t 0))) (w[t]!)
      let t2 := add32 (bsig0 s.a) (majF s.a s.b s.c)
      ⟨add32 t1 t2, s.a, s.b, s.c, add32 s.d t1, s.e, s.f, s.g⟩) hv
  ⟨add32 hv.a st.a, add32 hv.b st.b, add32 hv.c st.c, add32 hv.d st.d,
   add32 hv.e st.e, add32 hv.f st.f, add32 hv.g st.g, add32 hv.h st.h⟩

/-- Big-endian 8-byte encoding of the 64-bit message length. -/
def be64 (n : Nat) : List Nat :=
  [n / 2 ^ 56 % 256, n / 2 ^ 48 % 256, n / 2 ^ 40 % 256, n / 2 ^ 32 % 256,
   n / 2 ^ 24 % 256, n / 2 ^ 16 % 256, n / 2 ^ 8 % 256, n % 256]

/-- SHA-256 message padding. -/
def padMessage (msg : List Nat) : List Nat :=
  let L := msg.length
  let k := (119 - L % 64) % 64
  msg ++ [0x80] ++ List.replicate k 0 ++ be64 ((8 * L) % 2 ^ 64)

/-- Group bytes into big-endian 32-bit words. -/
def bytesToWords : List Nat → List Nat
  | b0 :: b1 :: b2 :: b3 :: rest =>
    (((b0 * 256 + b1) * 256 + b2) * 256 + b3) :: bytesToWords rest
  | _ => []

/-- Fold the compression function over the 16-word blocks. -/
def processWords (hv : Hash8) : List Nat → Hash8
  | w0 :: w1 :: w2 :: w3 :: w4 :: w5 :: w6 :: w7 ::
      w8 :: w9 :: w10 :: w11 :: w12 :: w13 :: w14 :: w15 :: rest =>
    processWords (compressBlock hv
      [w0, w1, w2, w3, w4, w5, w6, w7, w8, w9, w10, w11, w12, w13, w14, w15]) rest
  | _ => hv

/-- The sixteen lowercase hexadecimal digit characters. -/
def hexChars : List Char := "0123456789abcdef".toList

/-- One lowercase hexadecimal digit. -/
def hexDigit (n : Nat) : Char := hexChars.getD n 'f'

/-- Eight hex digits of one 32-bit word. -/
def toHex8 (n : Nat) : List Char :=
  [hexDigit (n / 16 ^ 7 % 16), hexDigit (n / 16 ^ 6 % 16),
   hexDigit (n / 16 ^ 5 % 16), hexDigit (n / 16 ^ 4 % 16),
   hexDigit (n / 16 ^ 3 % 16), hexDigit (n / 16 ^ 2 % 16),
   hexDigit (n / 16 % 16), hexDigit (n % 16)]

/-- `hashlib.sha256(msg).hexdigest()` as a character list. -/
def sha256hexChars (msg : List Nat) : List Char :=
  let hv := processWords H0sha (bytesToWords (padMessage msg))
  toHex8 hv.a ++ toHex8 hv.b ++ toHex8 hv.c ++ toHex8 hv.d ++
    toHex8 hv.e ++ toHex8 hv.f ++ toHex8 hv.g ++ toHex8 hv.h

/-- UTF-8 encoding of one character (`os.fsencode` on the strings the code
hashes). -/
def utf8EncodeChar (c : Char) : List Nat :=
  let n := c.toNat
  if n < 128 then [n]
  else if n < 2048 then [192 + n / 64, 128 + n % 64]
  else if n < 65536 then [224 + n / 4096, 128 + n / 64 % 64, 128 + n % 64]
  else [240 + n / 262144, 128 + n / 4096 % 64, 128 + n / 64 % 64, 128 + n % 64]

/-- UTF-8 bytes of a string. -/
def utf8Bytes (s : String) : List Nat := s.toList.flatMap utf8EncodeChar

/-- A character is a lowercase hexadecimal digit. -/
def isLowerHexChar (c : Char) : Prop := c ∈ hexChars

/-! ## environment.py -/

/-- An environment-variable mapping (`os.environ` or a copy of it). -/
abbrev Env := String → Option String

/-- `env[k] = v`. -/
def Env.set (e : Env) (k v : String) : Env := fun x => if x = k then some v else e x

/-- `env.pop(k, None)`. -/
def Env.pop (e : Env) (k : String) : Env := fun x => if x = k then none else e x

/-- The interpreter state that `environment.py` inspects: `sys.prefix`,
whether `prefix / 'conda-meta'` and `prefix / 'envs'` are directories, whether
the legacy `sys.real_prefix` attribute exists, and `sys.base_prefix`. -/
structure SysState where
  sysPfx : String
  condaMetaIsDir : Bool
  envsIsDir : Bool
  hasRealPfx : Bool
  basePfx : String

/-- `detect_conda_env()`: the name and prefix of the conda environment
holding `sys.prefix`, if any (`'base'` when `prefix / 'envs'` exists, else the
prefix basename). -/
def detect_conda_env (w : Bool) (st : SysState) : Option (String × PyPath) :=
  let pfx := parsePath w st.sysPfx
  if st.condaMetaIsDir = false then none
  else if st.envsIsDir then some ("base", pfx)
  else some (PyPath.name pfx, pfx)

/-- `detect_venv()`: `Path(sys.prefix)` when `sys.real_prefix` exists or
`sys.base_prefix` differs from `sys.prefix`. -/
def detect_venv (w : Bool) (st : SysState) : Option PyPath :=
  if st.hasRealPfx then some (parsePath w st.sysPfx)
  else if st.basePfx ≠ st.sysPfx then some (parsePath w st.sysPfx)
  else none

/-- Python `lstrip('.')`. -/
def lstripDots (s : String) : String :=
  String.mk (s.toList.dropWhile (fun c => c = '.'))

/-- `short_envname()`. -/
def short_envname (w : Bool) (st : SysState) : Option String :=
  match detect_conda_env w st with
  | some (envname, _) => if envname = "base" then none else some envname
  | none =>
    match detect_venv w st with
    | some envpath =>
      let envname := lstripDots (PyPath.name envpath)
      if envname = "venv" then none else some envname
    | none => none

/-- Result of `activate_conda_env` / `activate_venv`: Python `None` (already
active), a patched copy of the environment, or a raised exception (the
`KeyError` when `PATH` is unset). -/
inductive ActResult where
  | absent
  | patched (e : Env)
  | error

/-- `os.path.pathsep`. -/
def pathSepStr (w : Bool) : String := if w then ";" else ":"

/-- The already-active test at the top of `activate_conda_env`:
`current_name == name and Path(current_prefix) == prefix`. -/
def conda_already_active (w : Bool) (name : String) (pfx : PyPath) (env : Env) : Bool :=
  (env "CONDA_DEFAULT_ENV" == some name) &&
    (match Option.map (parsePath w) (env "CONDA_PREFIX") with
     | some q => pyPathEq w q pfx
     | none => false)

/-- `activate_conda_env(name, prefix)` applied to the copy of `os.environ`
(the copy is the `environ` argument; reading `PATH` is hoisted before the
writes to the other two keys, which does not change its value). -/
def activate_conda_env (w : Bool) (name pfxStr : String) (environ : Env) : ActResult :=
  let pfx := parsePath w pfxStr
  let env := environ
  if conda_already_active w name pfx env then ActResult.absent
  else
    match env "PATH" with
    | none => ActResult.error
    | some oldPath =>
      let env := Env.set env "CONDA_DEFAULT_ENV" name
      let env := Env.set env "CONDA_PREFIX" (PyPath.toStr w pfx)
      let newPath :=
        if w then
          joinStrs (pathSepStr w)
            [PyPath.toStr w pfx,
             PyPath.toStr w (PyPath.child pfx ["Library", "mingw-w64", "bin"]),
             PyPath.toStr w (PyPath.child pfx ["Library", "usr", "bin"]),
             PyPath.toStr w (PyPath.child pfx ["Library", "bin"]),
             PyPath.toStr w (PyPath.child pfx ["Scripts"]),
             oldPath]
        else
          joinStrs (pathSepStr w) [PyPath.toStr w (PyPath.child pfx ["bin"]), oldPath]
      ActResult.patched (Env.set env "PATH" newPath)

/-- The already-active test at the top of `activate_venv`. -/
def venv_already_active (w : Bool) (pfx : PyPath) (env : Env) : Bool :=
  match Option.map (parsePath w) (env "VIRTUAL_ENV") with
  | some q => pyPathEq w q pfx
  | none => false

/-- `activate_venv(prefix)` applied to the copy of `os.environ`. -/
def activate_venv (w : Bool) (pfxStr : String) (environ : Env) : ActResult :=
  let pfx := parsePath w pfxStr
  let env := environ
  if venv_already_active w pfx env then ActResult.absent
  else
    match env "PATH" with
    | none => ActResult.error
    | some oldPath =>
      let env := Env.set env "VIRTUAL_ENV" (PyPath.toStr w pfx)
      let env := Env.pop env "PYTHONHOME"
      let newPath :=
        if w then
          joinStrs (pathSepStr w) [PyPath.toStr w (PyPath.child pfx ["Scripts"]), oldPath]
        else
          joinStrs (pathSepStr w) [PyPath.toStr w (PyPath.child pfx ["bin"]), oldPath]
      ActResult.patched (Env.set env "PATH" newPath)

/-- `activate_conda_env` as a state transformer over the parent process's
`os.environ`: the body reads `os.environ` once (the `.copy()` call) and all
writes go to the copy. -/
def activate_conda_env_st (w : Bool) (name pfxStr : String) : StateM Env ActResult := do
  let environ ← get
  pure (activate_conda_env w name pfxStr environ)

/-- `activate_venv` as a state transformer over the parent `os.environ`. -/
def activate_venv_st (w : Bool) (pfxStr : String) : StateM Env ActResult := do
  let environ ← get
  pure (activate_venv w pfxStr environ)

/-! ## shell.py (identity resolution) -/

/-- Python `str.title` (ASCII): a cased character following an uncased one is
uppercased, every other cased character is lowercased. -/
def pyTitleGo : Bool → List Char → List Char
  | _, [] => []
  | prev, c :: cs =>
    if c.isAlpha then
      (if prev then c.toLower else c.toUpper) :: pyTitleGo true cs
    else c :: pyTitleGo false cs

/-- `s.title()`. -/
def pyTitle (s : String) : String := String.mk (pyTitleGo false s.toList)

/-- The normalization of one textual appid segment in `_get_appid`:
`part.title()` followed by the `replacements` loop, in dict insertion order
(`' '→''`, `'_'→''`, `'.'→'-'`). -/
def normalize_part (s : String) : String :=
  let t := (pyTitle s).toList
  let t := replaceChar ' ' [] t
  let t := replaceChar '_' [] t
  let t := replaceChar '.' ['-'] t
  String.mk t

/-- `os.path.normcase` on Windows: forward slashes to backslashes, then
lowercase. -/
def winNormcase (s : String) : String :=
  String.mk (s.toList.map (fun c => if c = '/' then '\\' else c.toLower))

/-- The hash segment of the Windows appid: the first 16 characters of
`hashlib.sha256(bytes(Path(os.path.normcase(sys.prefix)))).hexdigest()`. -/
def interpreter_hash16 (pfxStr : String) : List Char :=
  (sha256hexChars
    (utf8Bytes (PyPath.toStr true (parsePath true (winNormcase pfxStr))))).take 16

/-- `_ModuleConfig._get_appid` on Windows: the loop over
`[org_name, module_name]` skipping `None`, each normalized, then the
`Python-<hash>` segment, dot-joined. -/
def get_appid_windows (orgName : Option String) (moduleName pfxStr : String) : String :=
  let appidParts := ([orgName, some moduleName].filterMap id).map normalize_part
  joinStrs "." (appidParts ++ ["Python-" ++ String.mk (interpreter_hash16 pfxStr)])

/-- `_ModuleConfig._get_appid` on POSIX. -/
def get_appid_posix (moduleName : String) (w : Bool) (st : SysState) : String :=
  match short_envname w st with
  | none => moduleName
  | some envname => moduleName ++ "-" ++ envname

/-- The `display_name` computed in `_ModuleConfig.__init__`: the configured
override or the module name, with the short environment name appended in
parentheses when present. -/
def display_name (configured : Option String) (moduleName : String) (w : Bool)
    (st : SysState) : String :=
  let base := configured.getD moduleName
  match short_envname w st with
  | none => base
  | some envname => base ++ " (" ++ envname ++ ")"

/-! ## linux.py -/

/-- `_desktop_escape`: the four `str.replace` calls in the insertion order of
the `escapes` dict — space, newline, tab, and backslash last. -/
def desktop_escape (s : String) : String :=
  let t := s.toList
  let t := replaceChar ' ' ['\\', 's'] t
  let t := replaceChar '\n' ['\\', 'n'] t
  let t := replaceChar '\t' ['\\', 't'] t
  let t := replaceChar '\\' ['\\', '\\'] t
  String.mk t

/-- The `Exec=` line that `create_desktop_file` writes for the target path. -/
def exec_field (target : String) : String := "Exec=" ++ desktop_escape target

/-! ## windows.py -/

/-- A Python value passed as `appid`: a `str` or anything else. -/
inductive PyVal where
  | str (s : String)
  | other

/-- Observable outcome of `set_process_appusermodel_id`: the exception raised,
or the `sethook(appid)` OS call that is reached. -/
inductive AppidResult where
  | environmentError
  | typeError
  | sethookCalled (appid : String)
deriving DecidableEq

/-- `set_process_appusermodel_id(appid)`: `_checkwindows()` first, then the
`isinstance`/length guard, then the `sethook` call. -/
def set_process_appusermodel_id (windows : Bool) (appid : PyVal) : AppidResult :=
  if windows = false then AppidResult.environmentError
  else
    match appid with
    | PyVal.other => AppidResult.typeError
    | PyVal.str s =>
      if 1024 ≤ s.length then AppidResult.typeError else AppidResult.sethookCalled s

/-! ## launcher.py (relaunch engine) -/

/-- The `'-gui'` pattern stripped from the invoking script name. -/
def guiPat : List Char := ['-', 'g', 'u', 'i']

/-- `script.name.rsplit('-gui', 1)[0]`: everything before the last occurrence
of `-gui`, or the whole name when there is none. -/
def stripGui (s : String) : String :=
  let cs := s.toList
  match firstOccur guiPat.reverse cs.reverse with
  | none => s
  | some j => String.mk (cs.take (cs.length - j - guiPat.length))

/-- Python `str.split` on a single character (keeps empty pieces). -/
def pySplit (sep : Char) (s : String) : List String :=
  (splitSeps (fun c => c == sep) s.toList).map (fun p => String.mk p)

/-- `str.rfind('.')` on a name, as used by `PurePath.suffix`. -/
def lastDotIdx (cs : List Char) : Option Nat :=
  match firstOccur ['.'] cs.reverse with
  | none => none
  | some j => some (cs.length - j - 1)

/-- `path.with_suffix('.py')` for the nonempty final components the launcher
feeds it: strip an existing suffix of the final component, append `.py`. -/
def withSuffixPy (p : PyPath) : PyPath :=
  match p.parts.getLast? with
  | none => p
  | some nm =>
    let base :=
      match lastDotIdx nm.toList with
      | some i =>
        if 0 < i ∧ i < nm.toList.length - 1 then String.mk (nm.toList.take i) else nm
      | none => nm
    { isAbs := p.isAbs, parts := p.parts.dropLast ++ [base ++ ".py"] }

/-- The script-path resolution step of `entry_point`:
`Path(package_directory, *module_name.split('.')[1:])`, then `__main__.py`
inside it when it is a directory, else `.with_suffix('.py')`. -/
def resolve_script_path (pkgDir : PyPath) (moduleName : String)
    (isDir : PyPath → Bool) : PyPath :=
  let segs := (pySplit '.' moduleName).drop 1
  let sp := PyPath.child pkgDir segs
  if isDir sp then PyPath.child sp ["__main__.py"] else withSuffixPy sp

/-- Outcome of the `subprocess.call` wait. -/
inductive ChildOutcome where
  | exited (c : Int)
  | interrupted
  | raised

/-- Exceptions that can escape `entry_point`. -/
inductive PyErr where
  | keyError
  | childError
deriving DecidableEq

/-- The ambient state `entry_point` reads: the OS family, `sys.argv`, the
import-system package-directory lookup, the directory predicate, the
interpreter state, `os.environ`, `sys.executable`,
`getattr(sys, '_base_executable', sys.executable)`, and the child-process
runner. -/
structure World where
  w : Bool
  argv : List String
  pkgDirOf : String → PyPath
  isDir : PyPath → Bool
  st : SysState
  environ : Env
  sysExecutable : String
  baseExecutable : String
  call : List String → Option Env → ChildOutcome

/-- The conda part of the patch phase: sets `popen_kwargs['env']` when a conda
environment is detected. -/
def conda_step (w : Bool) (st : SysState) (environ : Env) : Except PyErr (Option Env) :=
  match detect_conda_env w st with
  | none => Except.ok none
  | some (envname, pfx) =>
    match activate_conda_env w envname (PyPath.toStr w pfx) environ with
    | ActResult.absent => Except.ok none
    | ActResult.patched e => Except.ok (some e)
    | ActResult.error => Except.error PyErr.keyError

/-- The venv part of the patch phase: overwrites `popen_kwargs['env']` with
the `activate_venv` result (possibly `None`) when a venv is detected. -/
def venv_step (w : Bool) (st : SysState) (environ : Env) (prev : Option Env) :
    Except PyErr (Option Env) :=
  match detect_venv w st with
  | none => Except.ok prev
  | some pfx =>
    match activate_venv w (PyPath.toStr w pfx) environ with
    | ActResult.absent => Except.ok none
    | ActResult.patched e => Except.ok (some e)
    | ActResult.error => Except.error PyErr.keyError

/-- The whole patch phase of `entry_point` (conda check, then venv check). -/
def patch_phase (w : Bool) (st : SysState) (environ : Env) : Except PyErr (Option Env) :=
  match conda_step w st environ with
  | Except.error err => Except.error err
  | Except.ok prev => venv_step w st environ prev

/-- The patch phase as a state transformer over the parent `os.environ`. -/
def patch_phase_st (w : Bool) (st : SysState) : StateM Env (Except PyErr (Option Env)) := do
  let environ ← get
  pure (patch_phase w st environ)

/-- `get_venv_executable_and_env`: substitute the base executable for a venv
trampoline and add the `__PYVENV_LAUNCHER__` hint. -/
def get_venv_executable_and_env (wd : World) (env : Option Env) : String × Option Env :=
  if pyPathEq wd.w (parsePath wd.w wd.baseExecutable) (parsePath wd.w wd.sysExecutable) then
    (wd.sysExecutable, env)
  else
    let e := match env with | none => wd.environ | some e0 => e0
    (wd.baseExecutable, some (Env.set e "__PYVENV_LAUNCHER__" wd.sysExecutable))

/-- The module name derived from `sys.argv[0]` in `entry_point`. -/
def script_module_name (wd : World) : String :=
  stripGui (PyPath.name (parsePath wd.w (wd.argv.headD "")))

/-- The resolved target script path in `entry_point`. -/
def script_path_of (wd : World) : PyPath :=
  resolve_script_path (wd.pkgDirOf (script_module_name wd)) (script_module_name wd) wd.isDir

/-- The interpreter string and environment after the trampoline substitution
and the case-insensitive `pythonw.exe` → `python.exe` swap (the
`CREATE_NO_WINDOW` creation flag is a process-creation detail with no
observable value here and is not modelled). -/
def exec_python_env (wd : World) (env : Option Env) : String × Option Env :=
  let pe := get_venv_executable_and_env wd env
  let python := parsePath wd.w pe.1
  if strLower (PyPath.name python) = "pythonw.exe" then
    (PyPath.toStr wd.w (PyPath.child (PyPath.parent python) ["python.exe"]), pe.2)
  else (PyPath.toStr wd.w python, pe.2)

/-- The argument vector handed to `subprocess.call`:
`[str(python), str(script_path)] + sys.argv[1:]`. -/
def exec_args (wd : World) (env : Option Env) : List String :=
  [(exec_python_env wd env).1, PyPath.toStr wd.w (script_path_of wd)] ++ wd.argv.drop 1

/-- `entry_point()`: resolve, patch, exec; `sys.exit` with the child code,
`sys.exit(1)` on `KeyboardInterrupt`, anything else propagates. -/
def entry_point (wd : World) : Except PyErr Int :=
  match patch_phase wd.w wd.st wd.environ with
  | Except.error err => Except.error err
  | Except.ok env0 =>
    match wd.call (exec_args wd env0) ((exec_python_env wd env0).2) with
    | ChildOutcome.exited c => Except.ok c
    | ChildOutcome.interrupted => Except.ok 1
    | ChildOutcome.raised => Except.error PyErr.childError

/-! ## Concrete inputs used by the witnesses and counterexample -/

/-- An ambient environment with only `PATH` set. -/
def envOnlyPath : Env := fun k => if k = "PATH" then some "/bin" else none

/-- The environment produced by patching `envOnlyPath` for conda env
`base` at `/c` on POSIX. -/
def condaPatchedW : Env :=
  match activate_conda_env false "base" "/c" envOnlyPath with
  | ActResult.patched e => e
  | _ => envOnlyPath

/-- The environment produced by patching `envOnlyPath` for conda at
`/opt/conda` on Windows. -/
def condaPatchedWin : Env :=
  match activate_conda_env true "base" "/opt/conda" envOnlyPath with
  | ActResult.patched e => e
  | _ => envOnlyPath

/-- Interpreter state for the C5 counterexample: `sys.prefix` is `/c`, which
is simultaneously reported as conda env `base` and (per
`sys.real_prefix`) as a venv. -/
def st5 : SysState := ⟨"/c", true, true, true, "/c"⟩

/-- Ambient environment for the C5 counterexample: the venv `/c` is already
active (`VIRTUAL_ENV=/c`), the conda variables are unset, `PATH` is set. -/
def env5 : Env :=
  fun k => if k = "VIRTUAL_ENV" then some "/c" else if k = "PATH" then some "/bin" else none

/-- The (present) conda patch for `env5`. -/
def conda5 : Env :=
  match activate_conda_env false "base" "/c" env5 with
  | ActResult.patched e => e
  | _ => env5

/-- Interpreter state for the C5 witness: both a conda env and a venv are
detected at `/v`. -/
def st5b : SysState := ⟨"/v", true, true, true, "/v"⟩

/-- The conda patch of `envOnlyPath` for `/v`. -/
def conda5b : Env :=
  match activate_conda_env false "base" "/v" envOnlyPath with
  | ActResult.patched e => e
  | _ => envOnlyPath

/-- The venv patch of `envOnlyPath` for `/v`. -/
def venv5b : Env :=
  match activate_venv false "/v" envOnlyPath with
  | ActResult.patched e => e
  | _ => envOnlyPath

/-- Interpreter state outside any conda or virtual environment. -/
def stPlain : SysState := ⟨"/usr", false, false, false, "/usr"⟩

/-- A directory predicate that is false everywhere. -/
def isDirNever : PyPath → Bool := fun _ => false

/-- A directory predicate true exactly at `site/sub` (absolute). -/
def isDirSiteSub : PyPath → Bool :=
  fun p => p == PyPath.child ⟨true, ["site"]⟩ ["sub"]

/-- A concrete world for the C4 witness: module `oink`, no environment, a
child that exits with code 7. -/
def wd0 : World :=
  { w := false
    argv := ["oink"]
    pkgDirOf := fun _ => ⟨true, ["pkg", "oink"]⟩
    isDir := fun _ => true
    st := stPlain
    environ := fun _ => none
    sysExecutable := "/usr/bin/python3"
    baseExecutable := "/usr/bin/python3"
    call := fun _ _ => ChildOutcome.exited 7 }

theorem mk_toList (s : String) : String.mk s.toList = s := by
  cases s
  rfl

theorem toList_mk (l : List Char) : (String.mk l).toList = l := rfl

theorem splitSeps_ne_nil (f : Char → Bool) (cs : List Char) : splitSeps f cs ≠ [] := by
  induction cs with
  | nil => simp [splitSeps]
  | cons c cs ih =>
    simp only [splitSeps]
    cases h : splitSeps f cs with
    | nil => simp
    | cons p ps =>
      by_cases hc : f c <;> simp [hc]

theorem splitSeps_sepFree (f : Char → Bool) (cs : List Char) :
    ∀ p ∈ splitSeps f cs, ∀ c ∈ p, f c = false := by
  induction cs with
  | nil =>
    intro p hp c hc
    simp [splitSeps] at hp
    subst hp
    simp at hc
  | cons a cs ih =>
    intro p hp c hc
    simp only [splitSeps] at hp
    cases h : splitSeps f cs with
    | nil => exact absurd h (splitSeps_ne_nil f cs)
    | cons q qs =>
      rw [h] at hp
      have ihq : ∀ r ∈ q :: qs, ∀ c ∈ r, f c = false := by
        rw [← h]; exact ih
      rcases Bool.eq_false_or_eq_true (f a) with ha | ha <;> simp [ha] at hp
      · rcases hp with hp | hp | hp
        · subst hp; simp at hc
        · exact ihq p (by rw [hp]; exact List.mem_cons_self q qs) c hc
        · exact ihq p (List.mem_cons_of_mem q hp) c hc
      · rcases hp with hp | hp
        · subst hp
          rcases List.mem_cons.mp hc with hc | hc
          · subst hc; exact ha
          · exact ihq q (List.mem_cons_self q qs) c hc
        · exact ihq p (List.mem_cons_of_mem q hp) c hc

theorem splitSeps_sepFree_single (f : Char → Bool) (p : List Char)
    (hp : ∀ c ∈ p, f c = false) : splitSeps f p = [p] := by
  induction p with
  | nil => rfl
  | cons a p ih =>
    have ha : f a = false := hp a (List.mem_cons_self a p)
    have hrest : ∀ c ∈ p, f c = false := fun c hc => hp c (List.mem_cons_of_mem a hc)
    simp only [splitSeps, ih hrest, ha]
    simp

theorem splitSeps_append (f : Char → Bool) (p cs : List Char)
    (hp : ∀ c ∈ p, f c = false) :
    ∀ q qs, splitSeps f cs = q :: qs → splitSeps f (p ++ cs) = (p ++ q) :: qs := by
  induction p with
  | nil => intro q qs h; simpa using h
  | cons a p ih =>
    intro q qs h
    have ha : f a = false := hp a (List.mem_cons_self a p)
    have hrest : ∀ c ∈ p, f c = false := fun c hc => hp c (List.mem_cons_of_mem a hc)
    have hps := ih hrest q qs h
    simp only [List.cons_append, splitSeps, List.append_eq]
    rw [hps]
    simp [ha]

theorem splitSeps_cons_sep (f : Char → Bool) (c : Char) (cs : List Char)
    (hc : f c = true) : splitSeps f (c :: cs) = [] :: splitSeps f cs := by
  simp only [splitSeps]
  cases h : splitSeps f cs with
  | nil => exact absurd h (splitSeps_ne_nil f cs)
  | cons q qs => simp [hc]

theorem splitSeps_joinParts (f : Char → Bool) (sep : Char) (ps : List (List Char))
    (hsep : f sep = true) (hps : ∀ p ∈ ps, ∀ c ∈ p, f c = false) (hne : ps ≠ []) :
    splitSeps f (joinParts sep ps) = ps := by
  induction ps with
  | nil => exact absurd rfl hne
  | cons p rest ih =>
    cases rest with
    | nil =>
      simp only [joinParts]
      exact splitSeps_sepFree_single f p (hps p (List.mem_cons_self p []))
    | cons q rest2 =>
      have hrest : ∀ r ∈ q :: rest2, ∀ c ∈ r, f c = false :=
        fun r hr => hps r (List.mem_cons_of_mem p hr)
      have hj : splitSeps f (joinParts sep (q :: rest2)) = q :: rest2 :=
        ih hrest (by simp)
      have hsepcons : splitSeps f (sep :: joinParts sep (q :: rest2)) =
          [] :: q :: rest2 := by
        rw [splitSeps_cons_sep f sep _ hsep, hj]
      have happ := splitSeps_append f p (sep :: joinParts sep (q :: rest2))
        (hps p (List.mem_cons_self p _)) [] (q :: rest2) hsepcons
      simpa [joinParts] using happ

theorem pyPathEq_refl (w : Bool) (p : PyPath) : pyPathEq w p p = true := by
  simp [pyPathEq]

theorem sepSet_pathSepChar (w : Bool) : sepSet w (pathSepChar w) = true := by
  cases w <;> decide

/-- The components produced by parsing are canonical: nonempty, not `.`, and
separator-free. -/
theorem parsePath_canon (w : Bool) (s : String) :
    ∀ q ∈ (parsePath w s).parts,
      q.toList ≠ [] ∧ q.toList ≠ ['.'] ∧ ∀ c ∈ q.toList, sepSet w c = false := by
  intro q hq
  simp only [parsePath, List.mem_map] at hq
  obtain ⟨p, hp, rfl⟩ := hq
  rw [List.mem_filter] at hp
  obtain ⟨hmem, hkeep⟩ := hp
  have hfree := splitSeps_sepFree (sepSet w) s.toList p hmem
  simp only [keepPiece, Bool.and_eq_true, Bool.not_eq_true', beq_eq_false_iff_ne,
    ne_eq] at hkeep
  exact ⟨by simpa using hkeep.1, by simpa using hkeep.2, hfree⟩

/-- Round trip: re-parsing the printed form of a path with canonical
components recovers the path. -/
theorem parsePath_toStr (w : Bool) (p : PyPath)
    (hc : ∀ s ∈ p.parts,
      s.toList ≠ [] ∧ s.toList ≠ ['.'] ∧ ∀ c ∈ s.toList, sepSet w c = false) :
    parsePath w (PyPath.toStr w p) = p := by
  obtain ⟨ab, ps⟩ := p
  simp only [PyPath.toStr, toStrChars] at *
  cases ps with
  | nil =>
    cases ab
    · simp only [Bool.false_eq_true, if_false]
      simp [parsePath, headIsSep, splitSeps, keepPiece, sepSet]
    · simp only [if_true]
      simp [parsePath, headIsSep, splitSeps, keepPiece, sepSet_pathSepChar,
        splitSeps_cons_sep]
  | cons s0 rest =>
    have hcanon : ∀ q ∈ (s0 :: rest).map String.toList,
        ∀ c ∈ q, sepSet w c = false := by
      intro q hq c hcq
      simp only [List.mem_map] at hq
      obtain ⟨t, ht, rfl⟩ := hq
      exact (hc t ht).2.2 c hcq
    have hne : (s0 :: rest).map String.toList ≠ [] := by simp
    have hsplit : splitSeps (sepSet w) (joinParts (pathSepChar w)
        ((s0 :: rest).map String.toList)) = (s0 :: rest).map String.toList :=
      splitSeps_joinParts (sepSet w) (pathSepChar w) _ (sepSet_pathSepChar w)
        hcanon hne
    have hfilter : ∀ ps2 : List String,
        (∀ s ∈ ps2,
          s.toList ≠ [] ∧ s.toList ≠ ['.'] ∧ ∀ c ∈ s.toList, sepSet w c = false) →
        List.map (fun q => String.mk q)
          (List.filter keepPiece (ps2.map String.toList)) = ps2 := by
      intro ps2 h2
      induction ps2 with
      | nil => rfl
      | cons t ts ih =>
        have ht := h2 t (List.mem_cons_self t ts)
        have hk : keepPiece t.toList = true := by
          simp only [keepPiece, Bool.and_eq_true, Bool.not_eq_true',
            beq_eq_false_iff_ne, ne_eq]
          exact ⟨ht.1, ht.2.1⟩
        simp only [List.map_cons, List.filter_cons, hk, if_true, List.map_cons,
          mk_toList]
        rw [ih (fun s hs => h2 s (List.mem_cons_of_mem t hs))]
    cases ab
    · -- relative: the string is just the joined components
      simp only [Bool.false_eq_true, if_false, List.nil_append]
      have hhead : headIsSep w (joinParts (pathSepChar w)
          ((s0 :: rest).map String.toList)) = false := by
        have hs0 := hc s0 (List.mem_cons_self s0 rest)
        cases h0 : s0.toList with
        | nil => exact absurd h0 hs0.1
        | cons c0 cs0 =>
          have hc0 : sepSet w c0 = false := by
            apply hs0.2.2
            rw [h0]; exact List.mem_cons_self c0 cs0
          cases rest with
          | nil => simp only [List.map_cons, List.map_nil, joinParts, h0, headIsSep, hc0]
          | cons s1 rest1 =>
            simp only [List.map_cons, joinParts, h0, List.cons_append, headIsSep, hc0]
      refine PyPath.ext ?_ ?_
      · simpa [parsePath] using hhead
      · simp only [parsePath, toList_mk]
        rw [hsplit]
        exact hfilter (s0 :: rest) hc
    · -- absolute: a leading separator then the joined components
      simp only [if_true, List.singleton_append]
      refine PyPath.ext ?_ ?_
      · simp [parsePath, headIsSep, sepSet_pathSepChar]
      · simp only [parsePath, toList_mk]
        rw [splitSeps_cons_sep _ _ _ (sepSet_pathSepChar w), hsplit]
        have hkp : keepPiece [] = false := by decide
        simp only [List.filter_cons, hkp, Bool.false_eq_true, if_false]
        exact hfilter (s0 :: rest) hc

/-- The corollary used for patch idempotence: `Path(str(Path(s)))` equals
`Path(s)`. -/
theorem parse_toStr_parse (w : Bool) (s : String) :
    parsePath w (PyPath.toStr w (parsePath w s)) = parsePath w s :=
  parsePath_toStr w (parsePath w s) (parsePath_canon w s)

theorem hexDigit_mem (n : Nat) : isLowerHexChar (hexDigit n) := by
  unfold hexDigit isLowerHexChar
  rcases Nat.lt_or_ge n hexChars.length with h | h
  · rw [List.getD_eq_getElem hexChars 'f' h]
    exact List.getElem_mem h
  · rw [List.getD_eq_default hexChars 'f' h]
    decide

theorem sha256hexChars_length (msg : List Nat) : (sha256hexChars msg).length = 64 := by
  simp [sha256hexChars, toHex8]

theorem toHex8_mem (n : Nat) : ∀ c ∈ toHex8 n, isLowerHexChar c := by
  intro c hc
  simp only [toHex8, List.mem_cons, List.not_mem_nil, or_false] at hc
  rcases hc with h | h | h | h | h | h | h | h <;> (subst h; exact hexDigit_mem _)

theorem sha256hexChars_mem (msg : List Nat) :
    ∀ c ∈ sha256hexChars msg, isLowerHexChar c := by
  intro c hc
  simp only [sha256hexChars, List.mem_append] at hc
  rcases hc with (((((((h | h) | h) | h) | h) | h) | h) | h) <;> exact toHex8_mem _ c h

/-! ## Helper lemmas about environment mappings and the activate functions -/

theorem Env.set_same (e : Env) (k v : String) : Env.set e k v k = some v := by
  simp [Env.set]

theorem Env.set_other (e : Env) (k v x : String) (h : x ≠ k) :
    Env.set e k v x = e x := by
  simp [Env.set, h]

theorem conda_already_active_iff (w : Bool) (name : String) (pfx : PyPath) (env : Env) :
    conda_already_active w name pfx env = true ↔
      (env "CONDA_DEFAULT_ENV" = some name ∧
        ∃ s, env "CONDA_PREFIX" = some s ∧ pyPathEq w (parsePath w s) pfx = true) := by
  unfold conda_already_active
  cases h2 : env "CONDA_PREFIX" with
  | none => simp [h2]
  | some s => simp [h2, Bool.and_eq_true, beq_iff_eq]

theorem venv_already_active_iff (w : Bool) (pfx : PyPath) (env : Env) :
    venv_already_active w pfx env = true ↔
      ∃ s, env "VIRTUAL_ENV" = some s ∧ pyPathEq w (parsePath w s) pfx = true := by
  unfold venv_already_active
  cases h2 : env "VIRTUAL_ENV" with
  | none => simp [h2]
  | some s => simp [h2]

theorem activate_conda_env_absent_iff (w : Bool) (name pfxStr : String) (env : Env) :
    activate_conda_env w name pfxStr env = ActResult.absent ↔
      conda_already_active w name (parsePath w pfxStr) env = true := by
  simp only [activate_conda_env]
  cases hc : conda_already_active w name (parsePath w pfxStr) env with
  | true => simp [hc]
  | false =>
    simp only [hc, Bool.false_eq_true, if_false]
    cases hp : env "PATH" with
    | none => simp
    | some old => simp

theorem activate_venv_absent_iff (w : Bool) (pfxStr : String) (env : Env) :
    activate_venv w pfxStr env = ActResult.absent ↔
      venv_already_active w (parsePath w pfxStr) env = true := by
  simp only [activate_venv]
  cases hc : venv_already_active w (parsePath w pfxStr) env with
  | true => simp [hc]
  | false =>
    simp only [hc, Bool.false_eq_true, if_false]
    cases hp : env "PATH" with
    | none => simp
    | some old => simp

/-- The shape of the patched environment returned by `activate_conda_env`. -/
theorem activate_conda_env_patched (w : Bool) (name pfxStr : String) (env : Env)
    (e2 : Env) (h : activate_conda_env w name pfxStr env = ActResult.patched e2) :
    ∃ old, env "PATH" = some old ∧
      e2 = Env.set
        (Env.set (Env.set env "CONDA_DEFAULT_ENV" name)
          "CONDA_PREFIX" (PyPath.toStr w (parsePath w pfxStr)))
        "PATH"
        (if w then
          joinStrs (pathSepStr w)
            [PyPath.toStr w (parsePath w pfxStr),
             PyPath.toStr w (PyPath.child (parsePath w pfxStr) ["Library", "mingw-w64", "bin"]),
             PyPath.toStr w (PyPath.child (parsePath w pfxStr) ["Library", "usr", "bin"]),
             PyPath.toStr w (PyPath.child (parsePath w pfxStr) ["Library", "bin"]),
             PyPath.toStr w (PyPath.child (parsePath w pfxStr) ["Scripts"]),
             old]
         else
          joinStrs (pathSepStr w)
            [PyPath.toStr w (PyPath.child (parsePath w pfxStr) ["bin"]), old]) := by
  simp only [activate_conda_env] at h
  rcases Bool.eq_false_or_eq_true
      (conda_already_active w name (parsePath w pfxStr) env) with hcond | hcond
  · rw [hcond] at h
    simp at h
  · rw [hcond] at h
    simp only [Bool.false_eq_true, if_false] at h
    cases hp : env "PATH" with
    | none => rw [hp] at h; exact absurd h (by simp)
    | some old =>
      rw [hp] at h
      simp only [ActResult.patched.injEq] at h
      exact ⟨old, rfl, h.symm⟩

/-- The shape of the patched environment returned by `activate_venv`. -/
theorem activate_venv_patched (w : Bool) (pfxStr : String) (env : Env)
    (e2 : Env) (h : activate_venv w pfxStr env = ActResult.patched e2) :
    ∃ old, env "PATH" = some old ∧
      e2 = Env.set
        (Env.pop (Env.set env "VIRTUAL_ENV" (PyPath.toStr w (parsePath w pfxStr)))
          "PYTHONHOME")
        "PATH"
        (if w then
          joinStrs (pathSepStr w)
            [PyPath.toStr w (PyPath.child (parsePath w pfxStr) ["Scripts"]), old]
         else
          joinStrs (pathSepStr w)
            [PyPath.toStr w (PyPath.child (parsePath w pfxStr) ["bin"]), old]) := by
  simp only [activate_venv] at h
  rcases Bool.eq_false_or_eq_true (venv_already_active w (parsePath w pfxStr) env)
      with hcond | hcond
  · rw [hcond] at h
    simp at h
  · rw [hcond] at h
    simp only [Bool.false_eq_true, if_false] at h
    cases hp : env "PATH" with
    | none => rw [hp] at h; exact absurd h (by simp)
    | some old =>
      rw [hp] at h
      simp only [ActResult.patched.injEq] at h
      exact ⟨old, rfl, h.symm⟩

/-- Re-running `activate_conda_env` on its own patched output reports the
environment as already active. -/
theorem activate_conda_env_idem (w : Bool) (name pfxStr : String) (env e2 : Env)
    (h : activate_conda_env w name pfxStr env = ActResult.patched e2) :
    activate_conda_env w name pfxStr e2 = ActResult.absent := by
  obtain ⟨old, _, he2⟩ := activate_conda_env_patched w name pfxStr env e2 h
  subst he2
  apply (activate_conda_env_absent_iff w name pfxStr _).mpr
  apply (conda_already_active_iff w name (parsePath w pfxStr) _).mpr
  refine ⟨?_, PyPath.toStr w (parsePath w pfxStr), ?_, ?_⟩
  · rw [Env.set_other _ _ _ _ (by decide), Env.set_other _ _ _ _ (by decide),
      Env.set_same]
  · rw [Env.set_other _ _ _ _ (by decide), Env.set_same]
  · rw [parse_toStr_parse]
    exact pyPathEq_refl w _

/-- Re-running `activate_venv` on its own patched output reports the
environment as already active. -/
theorem activate_venv_idem (w : Bool) (pfxStr : String) (env e2 : Env)
    (h : activate_venv w pfxStr env = ActResult.patched e2) :
    activate_venv w pfxStr e2 = ActResult.absent := by
  obtain ⟨old, _, he2⟩ := activate_venv_patched w pfxStr env e2 h
  subst he2
  apply (activate_venv_absent_iff w pfxStr _).mpr
  apply (venv_already_active_iff w (parsePath w pfxStr) _).mpr
  refine ⟨PyPath.toStr w (parsePath w pfxStr), ?_, ?_⟩
  · rw [Env.set_other _ _ _ _ (by decide)]
    show Env.pop _ _ "VIRTUAL_ENV" = _
    rw [Env.pop]
    simp only [if_neg (by decide : ¬("VIRTUAL_ENV" = "PYTHONHOME"))]
    rw [Env.set_same]
  · rw [parse_toStr_parse]
    exact pyPathEq_refl w _

/-! ## Helper lemmas for stripGui and with_suffix -/

theorem toList_append (a b : String) : (a ++ b).toList = a.toList ++ b.toList := rfl

theorem str_append_assoc (a b c : String) : (a ++ b) ++ c = a ++ (b ++ c) := by
  rcases a with ⟨la⟩
  rcases b with ⟨lb⟩
  rcases c with ⟨lc⟩
  show String.mk ((la ++ lb) ++ lc) = String.mk (la ++ (lb ++ lc))
  rw [List.append_assoc]

theorem isPref_append_self (p t : List Char) : isPref p (p ++ t) = true := by
  induction p with
  | nil => rfl
  | cons a as ih => simp [isPref, ih]

theorem isPref_mem (p t : List Char) (h : isPref p t = true) : ∀ a ∈ p, a ∈ t := by
  induction p generalizing t with
  | nil => intro a ha; simp at ha
  | cons x xs ih =>
    intro a ha
    cases t with
    | nil => simp [isPref] at h
    | cons y ys =>
      simp only [isPref, Bool.and_eq_true, beq_iff_eq] at h
      rcases List.mem_cons.mp ha with ha | ha
      · subst ha; rw [h.1]; exact List.mem_cons_self y ys
      · exact List.mem_cons_of_mem y (ih ys h.2 a ha)

theorem firstOccur_isPref_zero (p cs : List Char) (h : isPref p cs = true) :
    firstOccur p cs = some 0 := by
  cases cs <;> simp [firstOccur, h]

theorem firstOccur_some_mem (p cs : List Char) (j : Nat)
    (h : firstOccur p cs = some j) : ∀ a ∈ p, a ∈ cs := by
  induction cs generalizing j with
  | nil =>
    intro a ha
    cases p with
    | nil => simp at ha
    | cons x xs => simp [firstOccur, isPref] at h
  | cons c cs ih =>
    intro a ha
    rcases Bool.eq_false_or_eq_true (isPref p (c :: cs)) with hp | hp
    · exact isPref_mem p (c :: cs) hp a ha
    · simp only [firstOccur, hp, Bool.false_eq_true, if_false] at h
      cases hfo : firstOccur p cs with
      | none => rw [hfo] at h; simp at h
      | some j2 => exact List.mem_cons_of_mem c (ih j2 hfo a ha)

theorem stripGui_no_hyphen (s : String) (h : ('-' : Char) ∉ s.toList) :
    stripGui s = s := by
  simp only [stripGui]
  cases hf : firstOccur guiPat.reverse s.toList.reverse with
  | none => rfl
  | some j =>
    exfalso
    have hm := firstOccur_some_mem _ _ _ hf '-' (by decide)
    rw [List.mem_reverse] at hm
    exact h hm

theorem stripGui_gui_suffix (m : String) : stripGui (m ++ "-gui") = m := by
  have hrev : ((m ++ "-gui").toList).reverse = guiPat.reverse ++ m.toList.reverse := by
    rw [toList_append]
    show (m.toList ++ guiPat).reverse = _
    rw [List.reverse_append]
  have hf : firstOccur guiPat.reverse ((m ++ "-gui").toList).reverse = some 0 := by
    rw [hrev]
    exact firstOccur_isPref_zero _ _ (isPref_append_self _ _)
  simp only [stripGui, hf]
  have hlen : (m ++ "-gui").toList.length = m.toList.length + 4 := by
    rw [toList_append]
    simp
  rw [hlen]
  have h4 : guiPat.length = 4 := rfl
  rw [h4]
  have : m.toList.length + 4 - 0 - 4 = m.toList.length := by omega
  rw [this, toList_append]
  show String.mk ((m.toList ++ guiPat).take m.toList.length) = m
  rw [List.take_left, mk_toList]

theorem withSuffixPy_no_dot (p : PyPath) (nm : String)
    (hlast : p.parts.getLast? = some nm) (hnd : ('.' : Char) ∉ nm.toList) :
    withSuffixPy p = { isAbs := p.isAbs, parts := p.parts.dropLast ++ [nm ++ ".py"] } := by
  have hdot : lastDotIdx nm.toList = none := by
    simp only [lastDotIdx]
    cases hf : firstOccur ['.'] nm.toList.reverse with
    | none => rfl
    | some j =>
      exfalso
      have hm := firstOccur_some_mem _ _ _ hf '.' (by decide)
      rw [List.mem_reverse] at hm
      exact hnd hm
  simp only [withSuffixPy, hlast, hdot]

/-! ## Claim theorems -/

/-- C2: `activate_conda_env(name, prefix)` returns absent exactly when the
ambient `CONDA_DEFAULT_ENV` equals `name` (exact string comparison) and
`CONDA_PREFIX` equals `prefix` under path-normalized comparison;
`activate_venv(prefix)` returns absent exactly when the ambient `VIRTUAL_ENV`
equals `prefix` under path-normalized comparison; and re-applying either
function to an environment already patched by it reports the environment as
already active (a no-op). -/
theorem C2_env_patch_idempotence :
    (∀ (w : Bool) (name pfxStr : String) (env : Env),
      activate_conda_env w name pfxStr env = ActResult.absent ↔
        (env "CONDA_DEFAULT_ENV" = some name ∧
          ∃ s, env "CONDA_PREFIX" = some s ∧
            pyPathEq w (parsePath w s) (parsePath w pfxStr) = true))
  ∧ (∀ (w : Bool) (pfxStr : String) (env : Env),
      activate_venv w pfxStr env = ActResult.absent ↔
        ∃ s, env "VIRTUAL_ENV" = some s ∧
          pyPathEq w (parsePath w s) (parsePath w pfxStr) = true)
  ∧ (∀ (w : Bool) (name pfxStr : String) (env e2 : Env),
      activate_conda_env w name pfxStr env = ActResult.patched e2 →
        activate_conda_env w name pfxStr e2 = ActResult.absent)
  ∧ (∀ (w : Bool) (pfxStr : String) (env e2 : Env),
      activate_venv w pfxStr env = ActResult.patched e2 →
        activate_venv w pfxStr e2 = ActResult.absent) := by
  refine ⟨?_, ?_, activate_conda_env_idem, activate_venv_idem⟩
  · intro w name pfxStr env
    rw [activate_conda_env_absent_iff, conda_already_active_iff]
  · intro w pfxStr env
    rw [activate_venv_absent_iff, venv_already_active_iff]

/-- C2 witness: patching a concrete environment for conda `base` at `/c` and
re-running the activation on the result reports it as already active. -/
theorem C2_env_patch_idempotence_witness :
    activate_conda_env false "base" "/c" envOnlyPath = ActResult.patched condaPatchedW ∧
    activate_conda_env false "base" "/c" condaPatchedW = ActResult.absent := by
  have hpatch : activate_conda_env false "base" "/c" envOnlyPath =
      ActResult.patched condaPatchedW := rfl
  exact ⟨hpatch,
    C2_env_patch_idempotence.2.2.1 false "base" "/c" envOnlyPath condaPatchedW hpatch⟩

/-- C6: on the Windows path, two interpreter prefixes that agree after
`os.path.normcase` produce identical appids; in particular `C:\Env` and
`c:\env` do. -/
theorem C6_appid_case_insensitive :
    (∀ (org : Option String) (moduleName p1 p2 : String),
      winNormcase p1 = winNormcase p2 →
      get_appid_windows org moduleName p1 = get_appid_windows org moduleName p2)
  ∧ (∀ (org : Option String) (moduleName : String),
      get_appid_windows org moduleName "C:\\Env" =
        get_appid_windows org moduleName "c:\\env") := by
  have hgen : ∀ (org : Option String) (moduleName p1 p2 : String),
      winNormcase p1 = winNormcase p2 →
      get_appid_windows org moduleName p1 = get_appid_windows org moduleName p2 := by
    intro org m p1 p2 h
    unfold get_appid_windows interpreter_hash16
    rw [h]
  exact ⟨hgen, fun org m => hgen org m "C:\\Env" "c:\\env" (by decide)⟩

/-- C6 witness: the case-insensitivity theorem applied at a concrete
organization, module and prefix pair. -/
theorem C6_appid_case_insensitive_witness :
    get_appid_windows (some "Acme") "oink" "C:\\Env" =
      get_appid_windows (some "Acme") "oink" "c:\\env" :=
  C6_appid_case_insensitive.1 (some "Acme") "oink" "C:\\Env" "c:\\env" (by decide)

/-- C7: when the conda patch is non-absent, the patched `PATH` is, on
Windows, exactly the five directories `prefix`, `prefix/Library/mingw-w64/bin`,
`prefix/Library/usr/bin`, `prefix/Library/bin`, `prefix/Scripts` in that
order followed by the prior `PATH` value, joined with `;`; on POSIX it is the
single directory `prefix/bin` followed by the prior `PATH` value, joined with
`:`. -/
theorem C7_conda_path_prepend :
    ∀ (name pfxStr : String) (env e2 : Env) (old : String),
      env "PATH" = some old →
      (activate_conda_env true name pfxStr env = ActResult.patched e2 →
        e2 "PATH" = some (joinStrs ";"
          [PyPath.toStr true (parsePath true pfxStr),
           PyPath.toStr true (PyPath.child (parsePath true pfxStr)
             ["Library", "mingw-w64", "bin"]),
           PyPath.toStr true (PyPath.child (parsePath true pfxStr)
             ["Library", "usr", "bin"]),
           PyPath.toStr true (PyPath.child (parsePath true pfxStr) ["Library", "bin"]),
           PyPath.toStr true (PyPath.child (parsePath true pfxStr) ["Scripts"]),
           old])) ∧
      (activate_conda_env false name pfxStr env = ActResult.patched e2 →
        e2 "PATH" = some (joinStrs ":"
          [PyPath.toStr false (PyPath.child (parsePath false pfxStr) ["bin"]), old])) := by
  intro name pfxStr env e2 old hold
  constructor
  · intro h
    obtain ⟨old2, hold2, he2⟩ := activate_conda_env_patched true name pfxStr env e2 h
    rw [hold] at hold2
    have : old = old2 := by injection hold2
    subst this
    subst he2
    rw [Env.set_same]
    simp [pathSepStr]
  · intro h
    obtain ⟨old2, hold2, he2⟩ := activate_conda_env_patched false name pfxStr env e2 h
    rw [hold] at hold2
    have : old = old2 := by injection hold2
    subst this
    subst he2
    rw [Env.set_same]
    simp [pathSepStr]

/-- C7 witness: the Windows `PATH` prepend order evaluated for the conda
prefix `/opt/conda` over a concrete ambient environment. -/
theorem C7_conda_path_prepend_witness :
    condaPatchedWin "PATH" = some (joinStrs ";"
      [PyPath.toStr true (parsePath true "/opt/conda"),
       PyPath.toStr true (PyPath.child (parsePath true "/opt/conda")
         ["Library", "mingw-w64", "bin"]),
       PyPath.toStr true (PyPath.child (parsePath true "/opt/conda")
         ["Library", "usr", "bin"]),
       PyPath.toStr true (PyPath.child (parsePath true "/opt/conda") ["Library", "bin"]),
       PyPath.toStr true (PyPath.child (parsePath true "/opt/conda") ["Scripts"]),
       "/bin"]) :=
  (C7_conda_path_prepend "base" "/opt/conda" envOnlyPath condaPatchedWin "/bin" rfl).1 rfl

/-- C8: the activation functions and the patch phase of `entry_point` never
mutate the parent process's own environment mapping: run as state
transformers over `os.environ`, they leave the state exactly as it was (all
writes go to the copy returned to the caller). -/
theorem C8_parent_environ_unchanged :
    ∀ (w : Bool) (name pfxStr : String) (st : SysState) (s : Env),
      ((activate_conda_env_st w name pfxStr).run s).2 = s ∧
      ((activate_venv_st w pfxStr).run s).2 = s ∧
      ((patch_phase_st w st).run s).2 = s :=
  fun _ _ _ _ _ => ⟨rfl, rfl, rfl⟩

/-- C9: the `.desktop` `Exec=` escaping evaluated at the failing inputs.  The
`escapes` table maps each of space, newline, tab and backslash to its
two-character sequence, but because the backslash replacement runs last it
re-escapes the backslashes introduced by the first three replacements: a
space in the path comes out as the three characters `\\s`, not the
two-character `\s` the table intends (an original backslash does come out as
`\\`). -/
theorem C9_desktop_escape_eval :
    desktop_escape "a b" = "a\\\\sb"
  ∧ "a\\\\sb" ≠ "a\\sb"
  ∧ desktop_escape "a b\\c" = "a\\\\sb\\\\c"
  ∧ exec_field "a b" = "Exec=a\\\\sb"
  ∧ desktop_escape "\\" = "\\\\" := by
  refine ⟨by decide, by decide, by decide, by decide, by decide⟩

/-- C10: on Windows, `set_process_appusermodel_id` raises `TypeError` exactly
for a non-string appid or a string of length at least 1024, before any OS
call is made; every string shorter than 1024 passes the guard and reaches the
`sethook` call; on a non-Windows OS the call raises `EnvironmentError`
first. -/
theorem C10_appid_guard :
    (∀ s : String,
      set_process_appusermodel_id true (PyVal.str s) = AppidResult.typeError ↔
        1024 ≤ s.length)
  ∧ set_process_appusermodel_id true PyVal.other = AppidResult.typeError
  ∧ (∀ s : String, s.length < 1024 →
      set_process_appusermodel_id true (PyVal.str s) = AppidResult.sethookCalled s)
  ∧ (∀ appid : PyVal,
      set_process_appusermodel_id false appid = AppidResult.environmentError) := by
  refine ⟨?_, rfl, ?_, ?_⟩
  · intro s
    by_cases hl : 1024 ≤ s.length <;> simp [set_process_appusermodel_id, hl]
  · intro s h
    simp [set_process_appusermodel_id, Nat.not_le.mpr h]
  · intro appid
    rfl

/-- C10 witness: a short string appid passes the guard and reaches the
`sethook` call. -/
theorem C10_appid_guard_witness :
    set_process_appusermodel_id true (PyVal.str "Oink.Python-0123456789abcdef") =
      AppidResult.sethookCalled "Oink.Python-0123456789abcdef" :=
  C10_appid_guard.2.2.1 "Oink.Python-0123456789abcdef" (by decide)

theorem interpreter_hash16_length (p : String) : (interpreter_hash16 p).length = 16 := by
  simp [interpreter_hash16, List.length_take, sha256hexChars_length]

theorem interpreter_hash16_mem (p : String) :
    ∀ c ∈ interpreter_hash16 p, isLowerHexChar c := by
  intro c hc
  exact sha256hexChars_mem _ c (List.take_subset 16 _ hc)

/-- C1: on Windows the appid is the dot-join of the normalized organization
segment (when present), the normalized module segment, and `Python-` followed
by the first 16 lowercase hex characters of the SHA-256 of the case-normalized
interpreter prefix; on POSIX it is the module name alone when no short
environment name exists, else `module-envname`.  For module `oink` with no
configuration and no environment, `display_name = "oink"`, the POSIX appid is
`"oink"`, and the Windows appid is `"Oink.Python-"` followed by exactly 16
lowercase hex characters. -/
theorem C1_compute_appid_format :
    (∀ (org : Option String) (moduleName pfxStr : String),
      get_appid_windows org moduleName pfxStr =
        joinStrs "." ((org.map normalize_part).toList ++
          [normalize_part moduleName,
           "Python-" ++ String.mk (interpreter_hash16 pfxStr)]))
  ∧ (∀ pfxStr : String, (interpreter_hash16 pfxStr).length = 16 ∧
      ∀ c ∈ interpreter_hash16 pfxStr, isLowerHexChar c)
  ∧ (∀ (moduleName : String) (w : Bool) (st : SysState),
      short_envname w st = none → get_appid_posix moduleName w st = moduleName)
  ∧ (∀ (moduleName e : String) (w : Bool) (st : SysState),
      short_envname w st = some e →
      get_appid_posix moduleName w st = moduleName ++ "-" ++ e)
  ∧ (∀ (w : Bool) (st : SysState),
      st.condaMetaIsDir = false → st.hasRealPfx = false → st.basePfx = st.sysPfx →
      display_name none "oink" w st = "oink" ∧ get_appid_posix "oink" w st = "oink")
  ∧ (∀ pfxStr : String, ∃ hsh : String,
      get_appid_windows none "oink" pfxStr = "Oink.Python-" ++ hsh ∧
      hsh.length = 16 ∧ ∀ c ∈ hsh.toList, isLowerHexChar c) := by
  refine ⟨?_, ?_, ?_, ?_, ?_, ?_⟩
  · intro org m p
    cases org <;> rfl
  · intro p
    exact ⟨interpreter_hash16_length p, interpreter_hash16_mem p⟩
  · intro m w st h
    simp only [get_appid_posix, h]
  · intro m e w st h
    simp only [get_appid_posix, h]
  · intro w st h1 h2 h3
    have hce : detect_conda_env w st = none := by simp [detect_conda_env, h1]
    have hv : detect_venv w st = none := by simp [detect_venv, h2, h3]
    have hs : short_envname w st = none := by simp [short_envname, hce, hv]
    exact ⟨by simp [display_name, hs], by simp [get_appid_posix, hs]⟩
  · intro p
    refine ⟨String.mk (interpreter_hash16 p), ?_, ?_, ?_⟩
    · show normalize_part "oink" ++ "." ++
        ("Python-" ++ String.mk (interpreter_hash16 p)) = _
      have h1 : normalize_part "oink" = "Oink" := by decide
      rw [h1]
      have h2 : ("Oink" ++ "." : String) = "Oink." := rfl
      rw [h2, ← str_append_assoc]
      rfl
    · show (interpreter_hash16 p).length = 16
      exact interpreter_hash16_length p
    · show ∀ c ∈ interpreter_hash16 p, isLowerHexChar c
      exact interpreter_hash16_mem p

/-- C1 witness: the `oink` scenario evaluated at a concrete
outside-any-environment interpreter state. -/
theorem C1_compute_appid_format_witness :
    display_name none "oink" false stPlain = "oink" ∧
    get_appid_posix "oink" false stPlain = "oink" :=
  C1_compute_appid_format.2.2.2.2.1 false stPlain rfl rfl rfl

/-- C3: the module name is the invoking basename with a trailing `-gui`
stripped (a basename with no hyphen is unchanged); the resolved script path
is the package directory joined with the dotted segments after the first,
with `__main__.py` appended when that path is a directory and the `.py`
suffix appended otherwise; in particular for `pkg.sub` with package directory
`D` the result is `D/sub/__main__.py` when `D/sub` is a directory, else
`D/sub.py`. -/
theorem C3_entry_point_script_resolution :
    (∀ s : String, ('-' : Char) ∉ s.toList → stripGui s = s)
  ∧ (∀ m : String, stripGui (m ++ "-gui") = m)
  ∧ (∀ (pkgDir : PyPath) (moduleName : String) (isDir : PyPath → Bool),
      isDir (PyPath.child pkgDir ((pySplit '.' moduleName).drop 1)) = true →
      resolve_script_path pkgDir moduleName isDir =
        PyPath.child (PyPath.child pkgDir ((pySplit '.' moduleName).drop 1))
          ["__main__.py"])
  ∧ (∀ (pkgDir : PyPath) (moduleName : String) (isDir : PyPath → Bool) (nm : String),
      isDir (PyPath.child pkgDir ((pySplit '.' moduleName).drop 1)) = false →
      (PyPath.child pkgDir ((pySplit '.' moduleName).drop 1)).parts.getLast? =
        some nm →
      ('.' : Char) ∉ nm.toList →
      resolve_script_path pkgDir moduleName isDir =
        { isAbs := pkgDir.isAbs
          parts :=
            (PyPath.child pkgDir ((pySplit '.' moduleName).drop 1)).parts.dropLast
              ++ [nm ++ ".py"] })
  ∧ (∀ (d : PyPath) (isDir : PyPath → Bool),
      (isDir (PyPath.child d ["sub"]) = true →
        resolve_script_path d "pkg.sub" isDir =
          PyPath.child d ["sub", "__main__.py"]) ∧
      (isDir (PyPath.child d ["sub"]) = false →
        resolve_script_path d "pkg.sub" isDir = PyPath.child d ["sub.py"])) := by
  have hsub : (pySplit '.' "pkg.sub").drop 1 = ["sub"] := by decide
  refine ⟨stripGui_no_hyphen, stripGui_gui_suffix, ?_, ?_, ?_⟩
  · intro pkgDir m isDir h
    simp only [resolve_script_path, h, if_true]
  · intro pkgDir m isDir nm h hlast hnd
    simp only [resolve_script_path, h, Bool.false_eq_true, if_false]
    exact withSuffixPy_no_dot _ nm hlast hnd
  · intro d isDir
    constructor
    · intro h
      simp only [resolve_script_path, hsub, h, if_true]
      refine PyPath.ext rfl ?_
      simp [PyPath.child]
    · intro h
      simp only [resolve_script_path, hsub, h, Bool.false_eq_true, if_false]
      have hlast : (PyPath.child d ["sub"]).parts.getLast? = some "sub" :=
        List.getLast?_concat _
      have := withSuffixPy_no_dot (PyPath.child d ["sub"]) "sub" hlast (by decide)
      rw [this]
      refine PyPath.ext rfl ?_
      simp [PyPath.child, List.dropLast_concat]

/-- C3 witness: the resolution evaluated at concrete inputs — `-gui`
stripping, the non-directory case yielding `site/sub.py`, and the directory
case yielding `site/sub/__main__.py`. -/
theorem C3_entry_point_script_resolution_witness :
    stripGui ("oink" ++ "-gui") = "oink" ∧
    resolve_script_path ⟨true, ["site"]⟩ "pkg.sub" isDirNever =
      PyPath.child ⟨true, ["site"]⟩ ["sub.py"] ∧
    resolve_script_path ⟨true, ["site"]⟩ "pkg.sub" isDirSiteSub =
      PyPath.child ⟨true, ["site"]⟩ ["sub", "__main__.py"] := by
  refine ⟨C3_entry_point_script_resolution.2.1 "oink", ?_, ?_⟩
  · exact (C3_entry_point_script_resolution.2.2.2.2 ⟨true, ["site"]⟩
      isDirNever).2 rfl
  · exact (C3_entry_point_script_resolution.2.2.2.2 ⟨true, ["site"]⟩
      isDirSiteSub).1 (by decide)

/-- C4: when the patch phase succeeds, the child is invoked with the argument
vector `[interpreter, script_path] + argv[1:]`; a child exit code `c` becomes
the parent exit code `c`, a `KeyboardInterrupt` during the wait becomes the
fixed exit code 1, and any other exception from the call propagates
uncaught. -/
theorem C4_exit_code_propagation :
    ∀ (wd : World) (env0 : Option Env),
      patch_phase wd.w wd.st wd.environ = Except.ok env0 →
      (exec_args wd env0 =
        [(exec_python_env wd env0).1, PyPath.toStr wd.w (script_path_of wd)]
          ++ wd.argv.drop 1)
      ∧ (∀ c : Int,
          wd.call (exec_args wd env0) (exec_python_env wd env0).2 =
            ChildOutcome.exited c →
          entry_point wd = Except.ok c)
      ∧ (wd.call (exec_args wd env0) (exec_python_env wd env0).2 =
            ChildOutcome.interrupted →
          entry_point wd = Except.ok 1)
      ∧ (wd.call (exec_args wd env0) (exec_python_env wd env0).2 =
            ChildOutcome.raised →
          entry_point wd = Except.error PyErr.childError) := by
  intro wd env0 hp
  refine ⟨rfl, ?_, ?_, ?_⟩
  · intro c hcall
    simp only [entry_point, hp, hcall]
  · intro hcall
    simp only [entry_point, hp, hcall]
  · intro hcall
    simp only [entry_point, hp, hcall]

/-- C4 witness: a concrete world whose child exits with code 7 makes
`entry_point` exit with code 7. -/
theorem C4_exit_code_propagation_witness : entry_point wd0 = Except.ok 7 :=
  (C4_exit_code_propagation wd0 none rfl).2.1 7 rfl

/-- C5 counterexample: with both a conda environment and a venv detected at
`/c`, the venv already active in the ambient environment (venv patch absent)
and the conda patch present, the patch phase passes `None` (the ambient
environment) to the child — not the conda patch, as the claim as stated
requires. -/
theorem C5_patch_precedence_counterexample :
    detect_conda_env false st5 = some ("base", parsePath false "/c")
  ∧ detect_venv false st5 = some (parsePath false "/c")
  ∧ activate_conda_env false "base" "/c" env5 = ActResult.patched conda5
  ∧ activate_venv false "/c" env5 = ActResult.absent
  ∧ patch_phase false st5 env5 = Except.ok none
  ∧ (Except.ok (some conda5) : Except PyErr (Option Env)) ≠ Except.ok none := by
  refine ⟨rfl, rfl, rfl, rfl, rfl, ?_⟩
  intro h
  injection h with h2
  exact Option.noConfusion h2

/-- C5 amended: the venv check always overrides the conda result when a venv
is detected — the mapping passed to the child is the venv patch when present
and the ambient environment (absent) when the venv is already active, the
conda patch being discarded; the conda result is used only when no venv is
detected; and a present mapping is always exactly one of the two patches,
never a blend. -/
theorem C5_patch_precedence_amended :
    (∀ (w : Bool) (st : SysState) (environ : Env) (prev : Option Env),
      detect_venv w st = none → venv_step w st environ prev = Except.ok prev)
  ∧ (∀ (w : Bool) (st : SysState) (environ : Env) (prev : Option Env) (vp : PyPath),
      detect_venv w st = some vp →
      (∀ e : Env, activate_venv w (PyPath.toStr w vp) environ = ActResult.patched e →
        venv_step w st environ prev = Except.ok (some e))
      ∧ (activate_venv w (PyPath.toStr w vp) environ = ActResult.absent →
        venv_step w st environ prev = Except.ok none))
  ∧ (∀ (w : Bool) (st : SysState) (environ : Env) (prev : Option Env),
      conda_step w st environ = Except.ok prev →
      patch_phase w st environ = venv_step w st environ prev)
  ∧ (∀ (w : Bool) (st : SysState) (environ e : Env),
      patch_phase w st environ = Except.ok (some e) →
      (∃ vp, detect_venv w st = some vp ∧
        activate_venv w (PyPath.toStr w vp) environ = ActResult.patched e)
      ∨ (detect_venv w st = none ∧
        ∃ nm pfx, detect_conda_env w st = some (nm, pfx) ∧
          activate_conda_env w nm (PyPath.toStr w pfx) environ =
            ActResult.patched e)) := by
  refine ⟨?_, ?_, ?_, ?_⟩
  · intro w st environ prev h
    simp only [venv_step, h]
  · intro w st environ prev vp h
    constructor
    · intro e he
      simp only [venv_step, h, he]
    · intro he
      simp only [venv_step, h, he]
  · intro w st environ prev h
    simp only [patch_phase, h]
  · intro w st environ e h
    cases hc : conda_step w st environ with
    | error err =>
      have hpp : patch_phase w st environ = Except.error err := by
        simp only [patch_phase, hc]
      rw [hpp] at h
      simp at h
    | ok prev =>
      have hpp : patch_phase w st environ = venv_step w st environ prev := by
        simp only [patch_phase, hc]
      rw [hpp] at h
      cases hv : detect_venv w st with
      | some vp =>
        have hvs : venv_step w st environ prev =
            match activate_venv w (PyPath.toStr w vp) environ with
            | ActResult.absent => Except.ok none
            | ActResult.patched e2 => Except.ok (some e2)
            | ActResult.error => Except.error PyErr.keyError := by
          simp only [venv_step, hv]
        rw [hvs] at h
        cases ha : activate_venv w (PyPath.toStr w vp) environ with
        | absent => rw [ha] at h; simp at h
        | patched e2 =>
          rw [ha] at h
          simp only [Except.ok.injEq, Option.some.injEq] at h
          subst h
          exact Or.inl ⟨vp, rfl, ha⟩
        | error => rw [ha] at h; simp at h
      | none =>
        have hvs : venv_step w st environ prev = Except.ok prev := by
          simp only [venv_step, hv]
        rw [hvs] at h
        simp only [Except.ok.injEq] at h
        subst h
        refine Or.inr ⟨rfl, ?_⟩
        cases hcd : detect_conda_env w st with
        | none =>
          have hcs : conda_step w st environ = Except.ok none := by
            simp only [conda_step, hcd]
          rw [hcs] at hc
          simp at hc
        | some pr =>
          obtain ⟨nm, pfx2⟩ := pr
          have hcs : conda_step w st environ =
              match activate_conda_env w nm (PyPath.toStr w pfx2) environ with
              | ActResult.absent => Except.ok none
              | ActResult.patched e2 => Except.ok (some e2)
              | ActResult.error => Except.error PyErr.keyError := by
            simp only [conda_step, hcd]
          rw [hcs] at hc
          cases ha : activate_conda_env w nm (PyPath.toStr w pfx2) environ with
          | absent => rw [ha] at hc; simp at hc
          | patched e2 =>
            rw [ha] at hc
            simp only [Except.ok.injEq] at hc
            have he2 : e2 = e := by simpa using hc
            subst he2
            exact ⟨nm, pfx2, rfl, ha⟩
          | error => rw [ha] at hc; simp at hc

/-- C5 witness: with both environments detected at `/v` and the venv patch
present over a concrete ambient environment, the mapping passed to the child
is exactly the venv patch, overriding the present conda patch. -/
theorem C5_patch_precedence_amended_witness :
    patch_phase false st5b envOnlyPath = Except.ok (some venv5b) := by
  have hc : conda_step false st5b envOnlyPath = Except.ok (some conda5b) := rfl
  have hl := C5_patch_precedence_amended.2.2.1 false st5b envOnlyPath
    (some conda5b) hc
  have hv := (C5_patch_precedence_amended.2.1 false st5b envOnlyPath
    (some conda5b) (parsePath false "/v") rfl).1 venv5b rfl
  rw [hl, hv]

end DesktopApp
